import Mathlib

/-!
# tus-storage: request gate, file-name rewriter and file-id registry

A shallow embedding of `main.go` and `maps.go`.

* Go strings are byte sequences (`GoString`), so that `s[n:]` and `len(s)` count bytes.
* A Go `error` result is an `Option Err`, `none` being `nil`.
* The effects a handler performs on its `http.ResponseWriter`, on the logger, on the
  registry and on the handler it wraps are recorded, in program order, as a list of
  `Action`s. A call `h.ServeHTTP(w, r)` of a wrapped handler is the action
  `Action.serveHTTP h r`; what the wrapped handler does is not interpreted.
* The Redis server behind `FileIdMapRedisImpl` is a store of hashes that is either
  reachable or not.
-/

namespace TusStorage

/-! ## Strings and errors -/

/-- A Go `string`: an immutable sequence of bytes. -/
abbrev GoString := List UInt8

/-- UTF-8 encoding of one character (Go string constants are UTF-8 encoded). -/
def utf8 (c : Char) : List UInt8 :=
  let n := c.toNat
  if n < 128 then [UInt8.ofNat n]
  else if n < 2048 then [UInt8.ofNat (192 + n / 64), UInt8.ofNat (128 + n % 64)]
  else if n < 65536 then
    [UInt8.ofNat (224 + n / 4096), UInt8.ofNat (128 + n / 64 % 64), UInt8.ofNat (128 + n % 64)]
  else
    [UInt8.ofNat (240 + n / 262144), UInt8.ofNat (128 + n / 4096 % 64),
     UInt8.ofNat (128 + n / 64 % 64), UInt8.ofNat (128 + n % 64)]

/-- The bytes of a string constant. -/
def bytes (s : String) : GoString := s.data.flatMap utf8

/-- Non-nil Go `error` values met by this program. -/
inductive Err where
  /-- The sentinel `redis.Nil`: the requested field does not exist. -/
  | redisNil
  /-- Every other error, with its message (a refused connection, a rejected credential). -/
  | other (msg : String)
  deriving DecidableEq, Repr

/-! ## net/http values -/

/-- The fields of `url.URL`. -/
structure URL where
  Scheme : GoString
  Opaque : GoString
  User : Option (GoString × Option GoString)
  Host : GoString
  Path : GoString
  RawPath : GoString
  OmitHost : Bool
  ForceQuery : Bool
  RawQuery : GoString
  Fragment : GoString
  RawFragment : GoString
  deriving DecidableEq, Repr

/-- The fields of `http.Request` a server handler sees. `basicAuth` stands for the
`Authorization` header as `Request.BasicAuth` reads it: `some (user, pass)` when the header
carries well-formed Basic credentials, `none` when it is missing or malformed. -/
structure Request where
  Method : GoString
  URL : URL
  Proto : GoString
  Header : List (GoString × List GoString)
  basicAuth : Option (GoString × GoString)
  Body : GoString
  ContentLength : Int
  Host : GoString
  RemoteAddr : GoString
  RequestURI : GoString
  deriving DecidableEq, Repr

/-- The method `(*http.Request).BasicAuth`: `(username, password, ok)`, the strings being empty
when `ok` is false. -/
def Request.BasicAuth (r : Request) : GoString × GoString × Bool :=
  match r.basicAuth with
  | some (username, password) => (username, password, true)
  | none => ([], [], false)

/-- A reference to an `http.Handler` value whose behaviour is not interpreted. -/
structure Handler where
  id : Nat
  deriving DecidableEq, Repr

def StatusUnauthorized : Nat := 401

def StatusNotFound : Nat := 404

/-- Levels of the `slog` logger. -/
inductive Level where
  | Info
  | Warn
  | Error
  deriving DecidableEq, Repr

/-- One observable step of a handler or of the completion listener. -/
inductive Action where
  /-- A record written by `logger`. -/
  | log (level : Level) (msg : String)
  /-- The call `mapper.GetFileId(fileName)`. -/
  | getFileId (fileName : GoString)
  /-- The call `mapper.SetFileIdMap(fileName, fileId)`. -/
  | setFileIdMap (fileName fileId : GoString)
  /-- The call `w.WriteHeader(code)`. -/
  | writeHeader (code : Nat)
  /-- The call `w.Write(body)`. -/
  | write (body : GoString)
  /-- The call `h.ServeHTTP(w, r)` of a wrapped handler. -/
  | serveHTTP (h : Handler) (r : Request)
  deriving DecidableEq, Repr

/-- The calls of wrapped handlers among the actions, in order, each with its request. -/
def served : List Action → List (Handler × Request)
  | [] => []
  | Action.serveHTTP h r :: rest => (h, r) :: served rest
  | _ :: rest => served rest

/-- The response status fixed by the actions themselves: the code of the first `WriteHeader`,
200 when `Write` comes first, `none` when the response is left to a wrapped handler or no
response is written at all. -/
def statusWritten : List Action → Option Nat
  | [] => none
  | Action.writeHeader code :: _ => some code
  | Action.write _ :: _ => some 200
  | Action.serveHTTP _ _ :: _ => none
  | _ :: rest => statusWritten rest

/-- The arguments of the `Write` calls among the actions, in order. -/
def writes : List Action → List GoString
  | [] => []
  | Action.write body :: rest => body :: writes rest
  | _ :: rest => writes rest

/-- The names looked up in the registry, in order. -/
def lookups : List Action → List GoString
  | [] => []
  | Action.getFileId fileName :: rest => fileName :: lookups rest
  | _ :: rest => lookups rest

/-- The associations handed to the registry, in order. -/
def records : List Action → List (GoString × GoString)
  | [] => []
  | Action.setFileIdMap fileName fileId :: rest => (fileName, fileId) :: records rest
  | _ :: rest => records rest

/-! ## maps.go -/

/-- State of the Redis server as `redis.Client` reaches it: whether commands get through, and
the hashes it stores (key, then field, to value). -/
structure RedisClient where
  reachable : Bool
  hashes : GoString → GoString → Option GoString

/-- Result of `HGET key field`: the value, `redis.Nil` when the field is not there, another
error when the server cannot be reached. -/
def RedisClient.HGet (c : RedisClient) (key field : GoString) : GoString × Option Err :=
  if c.reachable then
    match c.hashes key field with
    | some value => (value, none)
    | none => ([], some Err.redisNil)
  else ([], some (Err.other "dial tcp: connect: connection refused"))

/-- Effect and result of `HSET key field value`: the field is set, whatever it held; the result
counts the fields that were added. -/
def RedisClient.HSet (c : RedisClient) (key field value : GoString) :
    RedisClient × Nat × Option Err :=
  if c.reachable then
    ({ c with hashes := fun k f => if k = key ∧ f = field then some value else c.hashes k f },
      (if (c.hashes key field).isSome then 0 else 1), none)
  else (c, 0, some (Err.other "dial tcp: connect: connection refused"))

/-- The registry `FileIdMapRedisImpl`, the one implementation of the interface `FileIdMap`. -/
structure FileIdMapRedisImpl where
  r : RedisClient

def fileIdMapKey : GoString := bytes "TUS:FileIdMap"

def FileIdMapRedisImpl.GetFileId (m : FileIdMapRedisImpl) (fileName : GoString) :
    GoString × Option Err :=
  m.r.HGet fileIdMapKey fileName

/-- The method `SetFileIdMap`: the registry after the call and the returned error. -/
def FileIdMapRedisImpl.SetFileIdMap (m : FileIdMapRedisImpl) (fileName fileId : GoString) :
    FileIdMapRedisImpl × Option Err :=
  match m.r.HSet fileIdMapKey fileName fileId with
  | (c, _, err) => ({ r := c }, err)

/-! ## main.go -/

/-- The parts of tusd's `handler.FileInfo` that are read here. -/
structure FileInfo where
  ID : GoString
  Size : Int
  Offset : Int
  MetaData : List (GoString × GoString)
  deriving DecidableEq, Repr

/-- The event tusd sends on `CompleteUploads`. -/
structure HookEvent where
  Upload : FileInfo
  deriving DecidableEq, Repr

/-- The function `onUploadComplete`: the registry after the call and the actions performed. -/
def onUploadComplete (event : HookEvent) (mapper : FileIdMapRedisImpl) :
    FileIdMapRedisImpl × List Action :=
  match event.Upload.MetaData.lookup (bytes "filename") with
  | none => (mapper, [Action.log Level.Error "unable to get file name from event"])
  | some fileName =>
    let fileId := event.Upload.ID
    match mapper.SetFileIdMap fileName fileId with
    | (mapper1, some _) =>
      (mapper1, [Action.setFileIdMap fileName fileId,
        Action.log Level.Error "unable to set file id map"])
    | (mapper1, none) =>
      (mapper1, [Action.setFileIdMap fileName fileId,
        Action.log Level.Info "file id map saved"])

/-- What a call of `fixFileNamePath` leaves behind: the actions performed, the request struct
the argument `r` points to as it is afterwards, and whether the call panicked. -/
structure Outcome where
  actions : List Action
  r : Request
  panicked : Bool
  deriving DecidableEq, Repr

/-- The function `fixFileNamePath`. The slice expression `r.URL.Path[len("/attachments/"):]`
panics when the path is shorter than the base path. -/
def fixFileNamePath (r : Request) (origin : Handler) (mapper : FileIdMapRedisImpl) : Outcome :=
  if r.Method ≠ bytes "GET" then
    { actions := [Action.serveHTTP origin r], r := r, panicked := false }
  else if r.URL.Path.length < (bytes "/attachments/").length then
    { actions := [Action.log Level.Info "fixFileNamePath"], r := r, panicked := true }
  else
    let fName := r.URL.Path.drop (bytes "/attachments/").length
    match mapper.GetFileId fName with
    | (_, some _) =>
      { actions := [Action.log Level.Info "fixFileNamePath", Action.getFileId fName,
          Action.log Level.Error "unable to get file id",
          Action.writeHeader StatusNotFound, Action.write (bytes "file not found")],
        r := r, panicked := false }
    | (fileId, none) =>
      let r2 : Request := { r with URL :=
        { r.URL with Path := bytes "/attachments/" ++ fileId,
                     RawPath := bytes "/attachments/" ++ fileId } }
      { actions := [Action.log Level.Info "fixFileNamePath", Action.getFileId fName,
          Action.log Level.Info "file id", Action.serveHTTP origin r2],
        r := { r with RequestURI := r2.URL.Path }, panicked := false }

/-- The interface `Auth`, declared outside `main.go` and `maps.go`: only its method `Check` is
used, and every implementation of it is admitted. -/
structure Auth where
  Check : GoString → GoString → Option Err

structure authHandler where
  authenticator : Auth
  inner : Handler

def AuthCheck (authenticator : Auth) (inner : Handler) : authHandler :=
  { authenticator := authenticator, inner := inner }

/-- The method `(*authHandler).ServeHTTP`. -/
def authHandler.ServeHTTP (a : authHandler) (r : Request) : List Action :=
  if r.Method = bytes "GET" then [Action.serveHTTP a.inner r]
  else
    match r.BasicAuth with
    | (user, pass, _) =>
      match a.authenticator.Check user pass with
      | some _ =>
        [Action.log Level.Warn "basic auth check failed", Action.writeHeader StatusUnauthorized]
      | none => [Action.serveHTTP a.inner r]

/-- The routes registered in `main` on the default `http.ServeMux`. -/
inductive Mount where
  /-- Pattern `/attachments/`, served by `fixFileNamePath` in front of `o1`. -/
  | withSlash
  /-- Pattern `/attachments`, served by `fixFileNamePath` in front of `o2`. -/
  | withoutSlash
  deriving DecidableEq, Repr

/-- The pattern of `main` that a clean request path matches: `/attachments` matches only itself,
`/attachments/` matches every path it begins. -/
def route (path : GoString) : Option Mount :=
  if path = bytes "/attachments" then some Mount.withoutSlash
  else if path.take (bytes "/attachments/").length = bytes "/attachments/" then
    some Mount.withSlash
  else none

/-! ## Sample values -/

def emptyURL : URL :=
  { Scheme := [], Opaque := [], User := none, Host := [], Path := [], RawPath := [],
    OmitHost := false, ForceQuery := false, RawQuery := [], Fragment := [], RawFragment := [] }

/-- A request as the server builds it for `method path`, without credentials. -/
def sampleRequest (method path : String) : Request :=
  { Method := bytes method, URL := { emptyURL with Path := bytes path },
    Proto := bytes "HTTP/1.1", Header := [], basicAuth := none, Body := [],
    ContentLength := 0, Host := bytes "localhost:8080", RemoteAddr := bytes "127.0.0.1:50000",
    RequestURI := bytes path }

/-- A reachable registry without any association. -/
def emptyMapper : FileIdMapRedisImpl :=
  { r := { reachable := true, hashes := fun _ _ => none } }

/-- A registry whose server cannot be reached. -/
def downMapper : FileIdMapRedisImpl :=
  { r := { reachable := false, hashes := fun _ _ => none } }

/-- A reachable registry holding the one association `report.pdf` to `abc123`. -/
def reportMapper : FileIdMapRedisImpl :=
  (emptyMapper.SetFileIdMap (bytes "report.pdf") (bytes "abc123")).1

/-- An authenticator that rejects every credential. -/
def denyAll : Auth := { Check := fun _ _ => some (Err.other "invalid credential") }

/-- An authenticator that accepts every credential, the empty one included. -/
def allowAll : Auth := { Check := fun _ _ => none }

def tusdHandler : Handler := { id := 0 }

/-- The completion event of upload `abc123` whose metadata has the single entry
`key: report.pdf`. -/
def sampleEvent (key : String) : HookEvent :=
  { Upload := { ID := bytes "abc123", Size := 0, Offset := 0,
                MetaData := [(bytes key, bytes "report.pdf")] } }

/-- The sequence of calls `SetFileIdMap(name, id)` for the pairs of the list, in order: the
registry after the last call and the error each call returned. -/
def recordAll (m : FileIdMapRedisImpl) :
    List (GoString × GoString) → FileIdMapRedisImpl × List (Option Err)
  | [] => (m, [])
  | (name, id) :: rest =>
    ((recordAll (m.SetFileIdMap name id).1 rest).1,
      (m.SetFileIdMap name id).2 :: (recordAll (m.SetFileIdMap name id).1 rest).2)

/-- The identifier of the last pair of the list recorded under `name`, if there is one. -/
def lastRecord : List (GoString × GoString) → GoString → Option GoString
  | [], _ => none
  | (n, id) :: rest, name =>
    match lastRecord rest name with
    | some later => some later
    | none => if n = name then some id else none

/-! ## Authentication gate -/

/-- C1: `authHandler.ServeHTTP` calls the inner handler, exactly once and with `r` itself, if and
only if the method is GET or `Check` accepts the basic-auth user and password; otherwise it
writes status 401, writes no body and calls no handler. -/
theorem authHandler_ServeHTTP_gate (a : authHandler) (r : Request) :
    (served (a.ServeHTTP r) = [(a.inner, r)] ↔
      (r.Method = bytes "GET" ∨
        a.authenticator.Check r.BasicAuth.1 r.BasicAuth.2.1 = none)) ∧
    ((r.Method = bytes "GET" ∨
        a.authenticator.Check r.BasicAuth.1 r.BasicAuth.2.1 = none) ∨
      (statusWritten (a.ServeHTTP r) = some 401 ∧ writes (a.ServeHTTP r) = [] ∧
        served (a.ServeHTTP r) = [])) := by
  unfold authHandler.ServeHTTP
  by_cases hm : r.Method = bytes "GET"
  · simp [hm, served]
  · cases hc : a.authenticator.Check r.BasicAuth.1 r.BasicAuth.2.1 with
    | none => simp [hm, hc, served]
    | some e => simp [hm, hc, served, statusWritten, writes, StatusUnauthorized]

/-- C2, the claim as stated fails: a POST without credentials is forwarded by a gate whose
authenticator accepts the empty user and password, and no 401 is written. -/
theorem authHandler_missing_credentials_forwarded :
    (sampleRequest "POST" "/attachments/").Method ≠ bytes "GET" ∧
    (sampleRequest "POST" "/attachments/").BasicAuth.2.2 = false ∧
    served ((AuthCheck allowAll tusdHandler).ServeHTTP (sampleRequest "POST" "/attachments/"))
      = [(tusdHandler, sampleRequest "POST" "/attachments/")] ∧
    ¬ (statusWritten
        ((AuthCheck allowAll tusdHandler).ServeHTTP (sampleRequest "POST" "/attachments/"))
          = some 401 ∧
       served ((AuthCheck allowAll tusdHandler).ServeHTTP (sampleRequest "POST" "/attachments/"))
          = []) := by
  decide

/-- C2 as amended: for a non-GET request whose basic-auth header is missing or malformed,
`ServeHTTP` hands the empty user and password to `Check`; it writes 401, writes no body and calls
no handler exactly when `Check` rejects them, and calls the inner handler with the request
exactly when `Check` accepts them. -/
theorem authHandler_missing_credentials (a : authHandler) (r : Request)
    (hm : r.Method ≠ bytes "GET") (hok : r.BasicAuth.2.2 = false) :
    ((statusWritten (a.ServeHTTP r) = some 401 ∧ writes (a.ServeHTTP r) = [] ∧
        served (a.ServeHTTP r) = []) ↔ a.authenticator.Check [] [] ≠ none) ∧
    (served (a.ServeHTTP r) = [(a.inner, r)] ↔ a.authenticator.Check [] [] = none) := by
  have hb : r.BasicAuth = ([], [], false) := by
    unfold Request.BasicAuth at hok ⊢
    cases h : r.basicAuth with
    | none => rfl
    | some c => simp [h] at hok
  unfold authHandler.ServeHTTP
  cases hc : a.authenticator.Check [] [] with
  | none => simp [hm, hb, hc, served, statusWritten]
  | some e => simp [hm, hb, hc, served, statusWritten, writes, StatusUnauthorized]

theorem authHandler_missing_credentials_witness :
    statusWritten ((AuthCheck denyAll tusdHandler).ServeHTTP (sampleRequest "POST" "/attachments/"))
      = some 401 ∧
    served ((AuthCheck denyAll tusdHandler).ServeHTTP (sampleRequest "POST" "/attachments/"))
      = [] :=
  have h := (authHandler_missing_credentials (AuthCheck denyAll tusdHandler)
    (sampleRequest "POST" "/attachments/") (by decide) (by decide)).1.2 (by decide)
  ⟨h.1, h.2.2⟩

/-! ## File-name rewriter -/

theorem drop_basePath (name : GoString) :
    (bytes "/attachments/" ++ name).drop (bytes "/attachments/").length = name := by
  simp

theorem basePath_le (name : GoString) :
    ¬ (bytes "/attachments/" ++ name).length < (bytes "/attachments/").length := by
  simp

/-- A GET whose path is long enough and whose lookup returns an error: the error branch. -/
theorem fixFileNamePath_lookup_error (r : Request) (origin : Handler)
    (mapper : FileIdMapRedisImpl) (name : GoString) (e : Err)
    (hm : r.Method = bytes "GET") (hp : r.URL.Path = bytes "/attachments/" ++ name)
    (hg : (mapper.GetFileId name).2 = some e) :
    fixFileNamePath r origin mapper =
      { actions := [Action.log Level.Info "fixFileNamePath", Action.getFileId name,
          Action.log Level.Error "unable to get file id",
          Action.writeHeader 404, Action.write (bytes "file not found")],
        r := r, panicked := false } := by
  unfold fixFileNamePath
  rw [if_neg (by simp [hm]), hp, if_neg (basePath_le name)]
  simp only [drop_basePath]
  rcases hv : mapper.GetFileId name with ⟨v, err⟩
  rw [hv] at hg
  simp only at hg
  subst hg
  rfl

/-- A GET whose path is long enough and whose lookup succeeds: the forwarding branch. -/
theorem fixFileNamePath_lookup_ok (r : Request) (origin : Handler)
    (mapper : FileIdMapRedisImpl) (name id : GoString)
    (hm : r.Method = bytes "GET") (hp : r.URL.Path = bytes "/attachments/" ++ name)
    (hg : mapper.GetFileId name = (id, none)) :
    fixFileNamePath r origin mapper =
      { actions := [Action.log Level.Info "fixFileNamePath", Action.getFileId name,
          Action.log Level.Info "file id",
          Action.serveHTTP origin { r with URL :=
            { r.URL with Path := bytes "/attachments/" ++ id,
                         RawPath := bytes "/attachments/" ++ id } }],
        r := { r with RequestURI := bytes "/attachments/" ++ id }, panicked := false } := by
  unfold fixFileNamePath
  rw [if_neg (by simp [hm]), hp, if_neg (basePath_le name)]
  simp only [drop_basePath, hg]

/-- A request with another method than GET goes to `origin` as it is: no lookup, no change of
the request. -/
theorem fixFileNamePath_other_method (r : Request) (origin : Handler)
    (mapper : FileIdMapRedisImpl) (hm : r.Method ≠ bytes "GET") :
    fixFileNamePath r origin mapper =
      { actions := [Action.serveHTTP origin r], r := r, panicked := false } := by
  unfold fixFileNamePath
  rw [if_pos hm]

/-- A GET path routed to the mount with the trailing slash is long enough for the slice, and
the name looked up is the path after its first thirteen bytes. -/
theorem fixFileNamePath_withSlash_in_range (r : Request) (origin : Handler)
    (mapper : FileIdMapRedisImpl) (hm : r.Method = bytes "GET")
    (hr : route r.URL.Path = some Mount.withSlash) :
    (fixFileNamePath r origin mapper).panicked = false ∧
    lookups (fixFileNamePath r origin mapper).actions = [r.URL.Path.drop 13] := by
  have ht : r.URL.Path.take (bytes "/attachments/").length = bytes "/attachments/" := by
    unfold route at hr
    by_cases h1 : r.URL.Path = bytes "/attachments"
    · simp [h1] at hr
    · by_cases h2 : r.URL.Path.take (bytes "/attachments/").length = bytes "/attachments/"
      · exact h2
      · simp [h1, h2] at hr
  have hp : r.URL.Path = bytes "/attachments/" ++ r.URL.Path.drop 13 := by
    have h13 : (bytes "/attachments/").length = 13 := by decide
    rw [h13] at ht
    calc r.URL.Path = r.URL.Path.take 13 ++ r.URL.Path.drop 13 :=
          (List.take_append_drop 13 r.URL.Path).symm
      _ = bytes "/attachments/" ++ r.URL.Path.drop 13 := by rw [ht]
  rcases hv : mapper.GetFileId (r.URL.Path.drop 13) with ⟨v, err⟩
  cases err with
  | none =>
    rw [fixFileNamePath_lookup_ok r origin mapper (r.URL.Path.drop 13) v hm hp hv]
    simp [lookups]
  | some e =>
    rw [fixFileNamePath_lookup_error r origin mapper (r.URL.Path.drop 13) e hm hp
      (by rw [hv])]
    simp [lookups]

/-- C3: a GET whose candidate name, the path after `/attachments/`, has no association in the
registry gets status 404, and the inner handler is not called. -/
theorem fixFileNamePath_not_found (r : Request) (origin : Handler)
    (mapper : FileIdMapRedisImpl) (name : GoString)
    (hm : r.Method = bytes "GET") (hp : r.URL.Path = bytes "/attachments/" ++ name)
    (hg : (mapper.GetFileId name).2 = some Err.redisNil) :
    statusWritten (fixFileNamePath r origin mapper).actions = some 404 ∧
    served (fixFileNamePath r origin mapper).actions = [] ∧
    (fixFileNamePath r origin mapper).panicked = false := by
  rw [fixFileNamePath_lookup_error r origin mapper name Err.redisNil hm hp hg]
  simp [statusWritten, served]

theorem fixFileNamePath_not_found_witness :
    (emptyMapper.GetFileId (bytes "report.pdf")).2 = some Err.redisNil ∧
    statusWritten (fixFileNamePath (sampleRequest "GET" "/attachments/report.pdf")
      tusdHandler emptyMapper).actions = some 404 ∧
    served (fixFileNamePath (sampleRequest "GET" "/attachments/report.pdf")
      tusdHandler emptyMapper).actions = [] :=
  have h := fixFileNamePath_not_found (sampleRequest "GET" "/attachments/report.pdf")
    tusdHandler emptyMapper (bytes "report.pdf") (by decide) (by decide) (by decide)
  ⟨by decide, h.1, h.2.1⟩

/-- C4, the claim as stated fails: with the registry unreachable the lookup error is not
`redis.Nil`, yet the status is 404, the one an unregistered name gets, and not a 5xx status. -/
theorem fixFileNamePath_unavailable_is_404 :
    (downMapper.GetFileId (bytes "report.pdf")).2
      = some (Err.other "dial tcp: connect: connection refused") ∧
    statusWritten (fixFileNamePath (sampleRequest "GET" "/attachments/report.pdf")
      tusdHandler downMapper).actions = some 404 ∧
    statusWritten (fixFileNamePath (sampleRequest "GET" "/attachments/report.pdf")
      tusdHandler emptyMapper).actions = some 404 ∧
    ¬ (∃ code, statusWritten (fixFileNamePath (sampleRequest "GET" "/attachments/report.pdf")
        tusdHandler downMapper).actions = some code ∧ 500 ≤ code ∧ code < 600) := by
  refine ⟨by decide, by decide, by decide, ?_⟩
  rintro ⟨code, h, h500, _⟩
  have h404 : statusWritten (fixFileNamePath (sampleRequest "GET" "/attachments/report.pdf")
      tusdHandler downMapper).actions = some 404 := by decide
  rw [h404] at h
  injection h with h
  omega

/-- C4 as amended: a GET whose lookup fails with an error other than not-found gets status 404,
the same status as an unregistered name, and the inner handler is not called. -/
theorem fixFileNamePath_unavailable (r : Request) (origin : Handler)
    (mapper : FileIdMapRedisImpl) (name : GoString) (e : Err)
    (hm : r.Method = bytes "GET") (hp : r.URL.Path = bytes "/attachments/" ++ name)
    (hg : (mapper.GetFileId name).2 = some e) (_he : e ≠ Err.redisNil) :
    statusWritten (fixFileNamePath r origin mapper).actions = some 404 ∧
    served (fixFileNamePath r origin mapper).actions = [] ∧
    (fixFileNamePath r origin mapper).panicked = false := by
  rw [fixFileNamePath_lookup_error r origin mapper name e hm hp hg]
  simp [statusWritten, served]

theorem fixFileNamePath_unavailable_witness :
    statusWritten (fixFileNamePath (sampleRequest "GET" "/attachments/report.pdf")
      tusdHandler downMapper).actions = some 404 ∧
    served (fixFileNamePath (sampleRequest "GET" "/attachments/report.pdf")
      tusdHandler downMapper).actions = [] :=
  have h := fixFileNamePath_unavailable (sampleRequest "GET" "/attachments/report.pdf")
    tusdHandler downMapper (bytes "report.pdf")
    (Err.other "dial tcp: connect: connection refused")
    (by decide) (by decide) (by decide) (by decide)
  ⟨h.1, h.2.1⟩

/-- C5, the claim as stated fails: the forwarded request differs from `r` in `URL.RawPath` as
well as in `URL.Path`, so it is not `r` with only the path replaced. -/
theorem fixFileNamePath_forward_changes_RawPath :
    reportMapper.GetFileId (bytes "report.pdf") = (bytes "abc123", none) ∧
    served (fixFileNamePath (sampleRequest "GET" "/attachments/report.pdf")
      tusdHandler reportMapper).actions
      ≠ [(tusdHandler, { sampleRequest "GET" "/attachments/report.pdf" with
            URL := { (sampleRequest "GET" "/attachments/report.pdf").URL with
              Path := bytes "/attachments/abc123" } })] ∧
    (served (fixFileNamePath (sampleRequest "GET" "/attachments/report.pdf")
      tusdHandler reportMapper).actions).map (fun c => c.2.URL.RawPath)
      = [bytes "/attachments/abc123"] ∧
    (sampleRequest "GET" "/attachments/report.pdf").URL.RawPath = [] := by
  decide

/-- C5 as amended: for a GET whose candidate name resolves to `id`, the inner handler is called
exactly once, with a request equal to `r` in every field except `URL.Path` and `URL.RawPath`,
which are both `/attachments/` followed by `id`. -/
theorem fixFileNamePath_forward (r : Request) (origin : Handler)
    (mapper : FileIdMapRedisImpl) (name id : GoString)
    (hm : r.Method = bytes "GET") (hp : r.URL.Path = bytes "/attachments/" ++ name)
    (hg : mapper.GetFileId name = (id, none)) :
    served (fixFileNamePath r origin mapper).actions =
      [(origin, { r with URL :=
          { r.URL with Path := bytes "/attachments/" ++ id,
                       RawPath := bytes "/attachments/" ++ id } })] ∧
    (fixFileNamePath r origin mapper).panicked = false := by
  rw [fixFileNamePath_lookup_ok r origin mapper name id hm hp hg]
  simp [served]

theorem fixFileNamePath_forward_witness :
    served (fixFileNamePath (sampleRequest "GET" "/attachments/report.pdf")
      tusdHandler reportMapper).actions =
      [(tusdHandler, { sampleRequest "GET" "/attachments/report.pdf" with
          URL := { (sampleRequest "GET" "/attachments/report.pdf").URL with
            Path := bytes "/attachments/" ++ bytes "abc123",
            RawPath := bytes "/attachments/" ++ bytes "abc123" } })] :=
  (fixFileNamePath_forward (sampleRequest "GET" "/attachments/report.pdf") tusdHandler
    reportMapper (bytes "report.pdf") (bytes "abc123")
    (by decide) (by decide) (by decide)).1

/-- C9: the request `GET /attachments`, which `main` routes to `fixFileNamePath`, makes the
slice of the path panic before any lookup, whereas `GET /attachments/` is looked up under the
empty name. -/
theorem fixFileNamePath_panics_without_slash :
    route (bytes "/attachments") = some Mount.withoutSlash ∧
    (fixFileNamePath (sampleRequest "GET" "/attachments") tusdHandler emptyMapper).panicked
      = true ∧
    lookups (fixFileNamePath (sampleRequest "GET" "/attachments") tusdHandler emptyMapper).actions
      = [] ∧
    route (bytes "/attachments/") = some Mount.withSlash ∧
    (fixFileNamePath (sampleRequest "GET" "/attachments/") tusdHandler emptyMapper).panicked
      = false ∧
    lookups (fixFileNamePath (sampleRequest "GET" "/attachments/") tusdHandler emptyMapper).actions
      = [[]] := by
  decide

/-- C10: for a GET whose name resolves, the request struct passed in is modified: after the
call its `RequestURI` is the rewritten path, not the value it had before. -/
theorem fixFileNamePath_modifies_RequestURI :
    (sampleRequest "GET" "/attachments/report.pdf").RequestURI
      = bytes "/attachments/report.pdf" ∧
    (fixFileNamePath (sampleRequest "GET" "/attachments/report.pdf")
      tusdHandler reportMapper).r.RequestURI = bytes "/attachments/abc123" ∧
    (fixFileNamePath (sampleRequest "GET" "/attachments/report.pdf")
      tusdHandler reportMapper).r ≠ sampleRequest "GET" "/attachments/report.pdf" ∧
    (served (fixFileNamePath (sampleRequest "GET" "/attachments/report.pdf")
      tusdHandler reportMapper).actions).map (fun c => c.2.RequestURI)
      = [bytes "/attachments/report.pdf"] := by
  decide

/-! ## Registry and completion listener -/

/-- On a reachable server `SetFileIdMap` returns no error and leaves the server reachable. -/
theorem SetFileIdMap_reachable (m : FileIdMapRedisImpl) (n id : GoString)
    (hup : m.r.reachable = true) :
    (m.SetFileIdMap n id).2 = none ∧ (m.SetFileIdMap n id).1.r.reachable = true := by
  simp [FileIdMapRedisImpl.SetFileIdMap, RedisClient.HSet, hup]

/-- On a reachable server a lookup after `SetFileIdMap n id` gives `id` for `n` and what it gave
before for every other name. -/
theorem GetFileId_SetFileIdMap (m : FileIdMapRedisImpl) (n id name : GoString)
    (hup : m.r.reachable = true) :
    (m.SetFileIdMap n id).1.GetFileId name =
      if n = name then (id, none) else m.GetFileId name := by
  by_cases h : n = name
  · subst h
    simp [FileIdMapRedisImpl.SetFileIdMap, FileIdMapRedisImpl.GetFileId, RedisClient.HSet,
      RedisClient.HGet, hup]
  · have h2 : ¬ name = n := fun e => h e.symm
    simp [FileIdMapRedisImpl.SetFileIdMap, FileIdMapRedisImpl.GetFileId, RedisClient.HSet,
      RedisClient.HGet, hup, h, h2]

/-- On a reachable server every call of a sequence of records succeeds, and a lookup afterwards
gives the last identifier recorded under the name, or what it gave before the sequence. -/
theorem recordAll_reachable (name : GoString) (ops : List (GoString × GoString)) :
    ∀ m : FileIdMapRedisImpl, m.r.reachable = true →
      (recordAll m ops).2 = ops.map (fun _ => none) ∧
      (recordAll m ops).1.GetFileId name =
        (match lastRecord ops name with
         | some id => (id, none)
         | none => m.GetFileId name) := by
  induction ops with
  | nil => intro m _; simp [recordAll, lastRecord]
  | cons p rest ih =>
    intro m hup
    obtain ⟨n, id⟩ := p
    have hs := SetFileIdMap_reachable m n id hup
    have h := ih (m.SetFileIdMap n id).1 hs.2
    refine ⟨by simp [recordAll, h.1, hs.1], ?_⟩
    simp only [recordAll, lastRecord, h.2]
    cases lastRecord rest name with
    | some later => rfl
    | none =>
      simp only [GetFileId_SetFileIdMap m n id name hup]
      by_cases hn : n = name <;> simp [hn]

/-- C6, the claim as stated fails: for the notification with identifier `abc123` and metadata
entry `fileName: report.pdf` nothing is recorded, and `report.pdf` stays unresolved. -/
theorem onUploadComplete_fileName_key_ignored :
    (sampleEvent "fileName").Upload.MetaData.lookup (bytes "fileName")
      = some (bytes "report.pdf") ∧
    records (onUploadComplete (sampleEvent "fileName") emptyMapper).2 = [] ∧
    (onUploadComplete (sampleEvent "fileName") emptyMapper).1.GetFileId (bytes "report.pdf")
      = ([], some Err.redisNil) := by
  decide

/-- C6 as amended: when the metadata has an entry under the key `filename` with value `n` and
the registry can be written, then after `onUploadComplete` the lookup of `n` returns the upload
identifier; the notification `abc123` with `filename: report.pdf` leaves `report.pdf` resolving
to `abc123`. -/
theorem onUploadComplete_records (event : HookEvent) (mapper : FileIdMapRedisImpl)
    (n : GoString) (hn : event.Upload.MetaData.lookup (bytes "filename") = some n)
    (hup : mapper.r.reachable = true) :
    (onUploadComplete event mapper).1.GetFileId n = (event.Upload.ID, none) ∧
    records (onUploadComplete event mapper).2 = [(n, event.Upload.ID)] ∧
    (onUploadComplete (sampleEvent "filename") emptyMapper).1.GetFileId (bytes "report.pdf")
      = (bytes "abc123", none) := by
  have hs := SetFileIdMap_reachable mapper n event.Upload.ID hup
  have hg := GetFileId_SetFileIdMap mapper n event.Upload.ID n hup
  have hv : mapper.SetFileIdMap n event.Upload.ID
      = ((mapper.SetFileIdMap n event.Upload.ID).1, none) := Prod.ext rfl hs.1
  refine ⟨?_, ?_, by decide⟩
  · unfold onUploadComplete
    simp only [hn]
    rw [hv]
    simpa using hg
  · unfold onUploadComplete
    simp only [hn]
    rw [hv]
    simp [records]

theorem onUploadComplete_records_witness :
    (onUploadComplete (sampleEvent "filename") reportMapper).1.GetFileId (bytes "report.pdf")
      = (bytes "abc123", none) :=
  (onUploadComplete_records (sampleEvent "filename") reportMapper (bytes "report.pdf")
    (by decide) (by decide)).1

/-- C7, the claim as stated fails: a notification without an entry under `fileName` but with an
entry under `filename` is recorded, and the lookup of its name changes. -/
theorem onUploadComplete_filename_key_recorded :
    (sampleEvent "filename").Upload.MetaData.lookup (bytes "fileName") = none ∧
    records (onUploadComplete (sampleEvent "filename") emptyMapper).2
      = [(bytes "report.pdf", bytes "abc123")] ∧
    emptyMapper.GetFileId (bytes "report.pdf") = ([], some Err.redisNil) ∧
    (onUploadComplete (sampleEvent "filename") emptyMapper).1.GetFileId (bytes "report.pdf")
      = (bytes "abc123", none) := by
  decide

/-- C7 as amended: when the metadata has no entry under the key `filename`, whatever else it
carries, `onUploadComplete` returns with the registry unchanged and without any call of
`SetFileIdMap`. -/
theorem onUploadComplete_without_filename (event : HookEvent) (mapper : FileIdMapRedisImpl)
    (hn : event.Upload.MetaData.lookup (bytes "filename") = none) :
    (onUploadComplete event mapper).1 = mapper ∧
    records (onUploadComplete event mapper).2 = [] ∧
    (∀ name, (onUploadComplete event mapper).1.GetFileId name = mapper.GetFileId name) := by
  unfold onUploadComplete
  rw [hn]
  simp [records]

theorem onUploadComplete_without_filename_witness :
    (onUploadComplete (sampleEvent "fileName") reportMapper).1 = reportMapper ∧
    records (onUploadComplete (sampleEvent "fileName") reportMapper).2 = [] :=
  have h := onUploadComplete_without_filename (sampleEvent "fileName") reportMapper (by decide)
  ⟨h.1, h.2.1⟩

/-- C8: on a reachable registry every call of a sequence of `SetFileIdMap` calls succeeds, and
afterwards `GetFileId name` returns the identifier of the last call for exactly that name, or
what it returned before the sequence when no call was for that name, which on an empty registry
is the not-found error; recording `a` then `b` under `n` resolves `n` to `b`, and recording `a`
twice resolves `n` to `a`. -/
theorem registry_last_write_wins (m : FileIdMapRedisImpl) (hup : m.r.reachable = true)
    (ops : List (GoString × GoString)) (name : GoString) :
    (recordAll m ops).2 = ops.map (fun _ => none) ∧
    (recordAll m ops).1.GetFileId name =
      (match lastRecord ops name with
       | some id => (id, none)
       | none => m.GetFileId name) ∧
    (recordAll emptyMapper ops).1.GetFileId name =
      (match lastRecord ops name with
       | some id => (id, none)
       | none => ([], some Err.redisNil)) ∧
    (∀ a b, (recordAll m [(name, a), (name, b)]).1.GetFileId name = (b, none)) ∧
    (∀ a, (recordAll m [(name, a), (name, a)]).1.GetFileId name = (a, none)) := by
  have hgen := recordAll_reachable name ops m hup
  have hemp := recordAll_reachable name ops emptyMapper rfl
  refine ⟨hgen.1, hgen.2, ?_, ?_, ?_⟩
  · rw [hemp.2]
    cases lastRecord ops name with
    | some id => rfl
    | none => rfl
  · intro a b
    rw [(recordAll_reachable name [(name, a), (name, b)] m hup).2]
    simp [lastRecord]
  · intro a
    rw [(recordAll_reachable name [(name, a), (name, a)] m hup).2]
    simp [lastRecord]

theorem registry_last_write_wins_witness :
    (recordAll reportMapper
      [(bytes "a.txt", bytes "id1"), (bytes "b.txt", bytes "id2"),
       (bytes "a.txt", bytes "id3")]).1.GetFileId (bytes "a.txt") = (bytes "id3", none) :=
  (registry_last_write_wins reportMapper (by decide)
    [(bytes "a.txt", bytes "id1"), (bytes "b.txt", bytes "id2"), (bytes "a.txt", bytes "id3")]
    (bytes "a.txt")).2.1.trans (by decide)

end TusStorage
